import Mathlib

/-!
Shallow embedding of the audio-to-affect pipeline of the Emotion-Adaptive
Voice Journal: the numeric utilities of `src/lib/colorUtils.ts`, the feature
extractors of `src/lib/audioUtils.ts`, and the emotion engine of
`src/hooks/useEmotionEngine.ts`, together with theorems about the specified
properties.

JavaScript numbers are modelled by exact arithmetic: `ℚ` where the source
only adds, multiplies, divides and compares, `ℝ` where it takes square roots,
exponentials or powers of ten.  Where IEEE-754 arithmetic produces NaN on a
reachable path the embedding makes that explicit (see `calculateRMS`).
-/

namespace EAVJ

/-- Embedding of `clamp(value, min, max)` from `colorUtils.ts`:
`Math.min(Math.max(value, min), max)`. -/
def clamp {α : Type} [LinearOrder α] (value lo hi : α) : α :=
  min (max value lo) hi

/-- Embedding of `lerp(start, end, t)` from `colorUtils.ts`:
`start + (end - start) * clamp(t, 0, 1)`.  (`end` is a reserved word in
Lean, so the second argument is called `stop`.) -/
def lerp {α : Type} [LinearOrderedField α] (start stop t : α) : α :=
  start + (stop - start) * clamp t 0 1

/-- Embedding of `mapRange(value, inMin, inMax, outMin, outMax)` from `colorUtils.ts`:
`normalized = (value - inMin) / (inMax - inMin); lerp(outMin, outMax, normalized)`. -/
def mapRange {α : Type} [LinearOrderedField α]
    (value inMin inMax outMin outMax : α) : α :=
  lerp outMin outMax ((value - inMin) / (inMax - inMin))

/-- Embedding of `exponentialSmooth(current, target, alpha)` from `colorUtils.ts`:
`current + alpha * (target - current)`. -/
def exponentialSmooth {α : Type} [LinearOrderedField α]
    (current target alpha : α) : α :=
  current + alpha * (target - current)

/-- Embedding of `EmotionState` from `types/emotion.ts`: a valence/arousal pair. -/
structure EmotionState (α : Type) where
  valence : α
  arousal : α
deriving DecidableEq

/-- Embedding of `VisualTheme` from `types/emotion.ts`: the 11 numeric theme fields. -/
structure VisualTheme (α : Type) where
  primaryHue : α
  primarySaturation : α
  primaryLightness : α
  secondaryHue : α
  secondarySaturation : α
  secondaryLightness : α
  blurAmount : α
  opacity : α
  animationSpeed : α
  scaleRange : α
  driftAmount : α
deriving DecidableEq

/-- Embedding of `THEME_PRESETS.melancholic` from `useEmotionEngine.ts`. -/
def THEME_PRESETS.melancholic (α : Type) [LinearOrderedField α] : VisualTheme α :=
  { primaryHue := 210, primarySaturation := 100, primaryLightness := 8,
    secondaryHue := 220, secondarySaturation := 80, secondaryLightness := 20,
    blurAmount := 60, opacity := 0.9, animationSpeed := 0.1,
    scaleRange := 0.1, driftAmount := 20 }

/-- Embedding of `THEME_PRESETS.calm` from `useEmotionEngine.ts`. -/
def THEME_PRESETS.calm (α : Type) [LinearOrderedField α] : VisualTheme α :=
  { primaryHue := 180, primarySaturation := 60, primaryLightness := 25,
    secondaryHue := 160, secondarySaturation := 50, secondaryLightness := 35,
    blurAmount := 45, opacity := 0.7, animationSpeed := 0.25,
    scaleRange := 0.15, driftAmount := 30 }

/-- Embedding of `THEME_PRESETS.anxious` from `useEmotionEngine.ts`. -/
def THEME_PRESETS.anxious (α : Type) [LinearOrderedField α] : VisualTheme α :=
  { primaryHue := 15, primarySaturation := 90, primaryLightness := 30,
    secondaryHue := 0, secondarySaturation := 85, secondaryLightness := 25,
    blurAmount := 8, opacity := 0.95, animationSpeed := 0.9,
    scaleRange := 0.3, driftAmount := 80 }

/-- Embedding of `THEME_PRESETS.joyful` from `useEmotionEngine.ts`. -/
def THEME_PRESETS.joyful (α : Type) [LinearOrderedField α] : VisualTheme α :=
  { primaryHue := 45, primarySaturation := 85, primaryLightness := 50,
    secondaryHue := 35, secondarySaturation := 90, secondaryLightness := 45,
    blurAmount := 15, opacity := 0.8, animationSpeed := 0.75,
    scaleRange := 0.25, driftAmount := 60 }

/-- The per-field body of the interpolation loop of `interpolateThemes`:
`bottom = lerp(bl, br, vPos); top = lerp(tl, tr, vPos); lerp(bottom, top, aPos)`. -/
def blendField {α : Type} [LinearOrderedField α] (bl br tl tr vPos aPos : α) : α :=
  lerp (lerp bl br vPos) (lerp tl tr vPos) aPos

/-- Embedding of `interpolateThemes(emotion)` from `useEmotionEngine.ts`:
`vPos = clamp((valence + 1) / 2, 0, 1)`, `aPos = clamp((arousal + 1) / 2, 0, 1)`,
then bilinear interpolation of each theme field across the four presets
(melancholic bottom-left, calm bottom-right, anxious top-left, joyful
top-right). -/
def interpolateThemes {α : Type} [LinearOrderedField α]
    (emotion : EmotionState α) : VisualTheme α :=
  let vPos := clamp ((emotion.valence + 1) / 2) 0 1
  let aPos := clamp ((emotion.arousal + 1) / 2) 0 1
  let m := THEME_PRESETS.melancholic α
  let c := THEME_PRESETS.calm α
  let x := THEME_PRESETS.anxious α
  let j := THEME_PRESETS.joyful α
  { primaryHue := blendField m.primaryHue c.primaryHue x.primaryHue j.primaryHue vPos aPos,
    primarySaturation := blendField m.primarySaturation c.primarySaturation x.primarySaturation j.primarySaturation vPos aPos,
    primaryLightness := blendField m.primaryLightness c.primaryLightness x.primaryLightness j.primaryLightness vPos aPos,
    secondaryHue := blendField m.secondaryHue c.secondaryHue x.secondaryHue j.secondaryHue vPos aPos,
    secondarySaturation := blendField m.secondarySaturation c.secondarySaturation x.secondarySaturation j.secondarySaturation vPos aPos,
    secondaryLightness := blendField m.secondaryLightness c.secondaryLightness x.secondaryLightness j.secondaryLightness vPos aPos,
    blurAmount := blendField m.blurAmount c.blurAmount x.blurAmount j.blurAmount vPos aPos,
    opacity := blendField m.opacity c.opacity x.opacity j.opacity vPos aPos,
    animationSpeed := blendField m.animationSpeed c.animationSpeed x.animationSpeed j.animationSpeed vPos aPos,
    scaleRange := blendField m.scaleRange c.scaleRange x.scaleRange j.scaleRange vPos aPos,
    driftAmount := blendField m.driftAmount c.driftAmount x.driftAmount j.driftAmount vPos aPos }

/-- Embedding of the sentiment-analysis effect of `useEmotionEngine.ts`:
`normalizedScore = clamp(result.score / 3, -1, 1)` and the persistent
`semanticValenceRef` is overwritten only when `result.score !== 0`.
The first argument is the stored semantic valence, the second the incoming
raw sentiment score; the result is the new stored semantic valence. -/
def semanticUpdate (semanticValence score : ℚ) : ℚ :=
  if score ≠ 0 then clamp (score / 3) (-1) 1 else semanticValence

/-- Embedding of the valence-fusion block of `processAudio` in
`useEmotionEngine.ts`: `fusedValence` starts as the acoustic valence and is
replaced by the blend with weights `semanticWeight = 0.6` and
`acousticWeight = 1 - semanticWeight` when the stored semantic signal is
non-zero. -/
def fuseValence {α : Type} [LinearOrderedField α] [DecidableEq α]
    (acousticValence semanticValence : α) : α :=
  if semanticValence ≠ 0 then
    acousticValence * (1 - 0.6) + semanticValence * 0.6
  else acousticValence

/-- Iteration of `exponentialSmooth` with a fixed target and `alpha = 0.15`,
as performed once per render tick by `updateTheme` in `useEmotionEngine.ts`. -/
def smoothedSeq (c target : ℚ) : ℕ → ℚ
  | 0 => c
  | n + 1 => exponentialSmooth (smoothedSeq c target n) target 0.15

/-- Statement helper: one field of a theme lies between the least and the
greatest of the four preset values of that field. -/
def fieldWithinPresets {α : Type} [LinearOrderedField α]
    (f : VisualTheme α → α) (t : VisualTheme α) : Prop :=
  min (min (f (THEME_PRESETS.melancholic α)) (f (THEME_PRESETS.calm α)))
      (min (f (THEME_PRESETS.anxious α)) (f (THEME_PRESETS.joyful α))) ≤ f t ∧
  f t ≤ max (max (f (THEME_PRESETS.melancholic α)) (f (THEME_PRESETS.calm α)))
      (max (f (THEME_PRESETS.anxious α)) (f (THEME_PRESETS.joyful α)))

/-- Embedding of `sigmoid(x, k)` from `useEmotionEngine.ts`:
`2 / (1 + Math.exp(-k * x)) - 1` (the default steepness `k = 4` is never
used; callers pass `3` and `2.5`). -/
noncomputable def sigmoid (x : ℝ) (k : ℝ) : ℝ :=
  2 / (1 + Real.exp (-k * x)) - 1

/-- Embedding of `AudioFeatures` from `types/emotion.ts`. -/
structure AudioFeatures (α : Type) where
  rms : α
  spectralCentroid : α
  pitchVariance : α
  pitch : α
  clarity : α
  isActive : Bool

open scoped Classical in

/-- Embedding of `audioToEmotion(features)` from `useEmotionEngine.ts`:
pitch and brightness components are range-mapped, combined 40/60, clamped
and passed through `sigmoid` with `k = 3` for valence; volume, noise and
variance components are range-mapped, summed, clamped and passed through
`sigmoid` with `k = 2.5` for arousal. -/
noncomputable def audioToEmotion (features : AudioFeatures ℝ) : EmotionState ℝ :=
  let pitchValence :=
    if features.pitch > 50 then mapRange features.pitch 100 300 (-0.5) 0.5 else 0
  let brightnessValence := mapRange features.spectralCentroid 1000 3000 (-1) 1
  let valence := sigmoid (clamp (pitchValence * 0.4 + brightnessValence * 0.6) (-1) 1) 3
  let volumeComponent := mapRange features.rms 0.02 0.4 (-1) 1
  let noiseComponent := mapRange features.clarity 0.1 0.6 (-0.5) 0.5
  let varianceComponent := mapRange features.pitchVariance 0 0.5 (-0.5) 0.5
  let arousal :=
    sigmoid (clamp (volumeComponent + noiseComponent + varianceComponent) (-1) 1) 2.5
  { valence := valence, arousal := arousal }

open scoped Classical in

/-- Embedding of the `processAudio` callback of `useEmotionEngine.ts`, as a
function of the simulation flag, the stored semantic valence and the
incoming features.  The result is the `EmotionState` passed to
`setEmotionState`, or `none` when the callback writes nothing (simulation
mode, or inactive audio). -/
noncomputable def processAudio (isSimulationMode : Bool) (semanticValence : ℝ)
    (features : AudioFeatures ℝ) : Option (EmotionState ℝ) :=
  if isSimulationMode then none
  else if features.isActive then
    let acousticEmotion := audioToEmotion features
    let fusedValence := fuseValence acousticEmotion.valence semanticValence
    let fusedArousal := acousticEmotion.arousal
    some { valence := clamp fusedValence (-1) 1, arousal := clamp fusedArousal (-1) 1 }
  else none

/-- Embedding of `setSimulatedEmotion(valence, arousal)` from
`useEmotionEngine.ts`: the pair is passed to `setEmotionState` unchanged,
with no clamping. -/
def setSimulatedEmotion {α : Type} (valence arousal : α) : EmotionState α :=
  { valence := valence, arousal := arousal }

/-- Embedding of `calculateRMS(dataArray)` from `audioUtils.ts`:
`sum` of squares, `rms = Math.sqrt(sum / dataArray.length)`, result
`Math.min(rms * 3, 1)`.  On a zero-length buffer the source computes
`Math.sqrt(0 / 0)`; in IEEE-754 arithmetic `0 / 0` is NaN, and NaN
propagates through `Math.sqrt` and `Math.min`, so the function returns NaN,
modelled here as `none`.  On nonempty buffers every operation is ordinary
real arithmetic and the result is `some` of the computed value. -/
noncomputable def calculateRMS (dataArray : List ℝ) : Option ℝ :=
  let sum := (dataArray.map fun x => x * x).sum
  if dataArray.length = 0 then none
  else some (min (Real.sqrt (sum / dataArray.length) * 3) 1)

/-- Embedding of `calculateZeroCrossingRate(timeData)` from `audioUtils.ts`:
count the indices `1 ≤ i < length` at which the sign changes
(`timeData[i] >= 0` and `timeData[i-1] < 0`, or the other way round), then
return `Math.min(crossings / 200, 1)`. -/
def calculateZeroCrossingRate (timeData : List ℚ) : ℚ :=
  let crossings := ((Finset.Ico 1 timeData.length).filter fun i =>
    (0 ≤ timeData.getD i 0 ∧ timeData.getD (i - 1) 0 < 0) ∨
    (timeData.getD i 0 < 0 ∧ 0 ≤ timeData.getD (i - 1) 0)).card
  min ((crossings : ℚ) / 200) 1

/-- Unnormalized autocorrelation at one lag, the inner loop of
`improvedAutoCorrelate`: the sum of `buffer[i] * buffer[i + period]` over
the valid overlap `i < SIZE - period`. -/
def corrAt (buffer : List ℝ) (period : ℕ) : ℝ :=
  ∑ i in Finset.range (buffer.length - period),
    buffer.getD i 0 * buffer.getD (i + period) 0

open scoped Classical in

/-- The search loop of `improvedAutoCorrelate`: fold over the candidate
periods keeping the pair `(maxCorr, bestPeriod)`, starting from `(-1, 0)`
and replacing it whenever the correlation at the current period is strictly
greater than the running maximum. -/
noncomputable def searchFold (buffer : List ℝ) (periods : List ℕ) (init : ℝ × ℕ) : ℝ × ℕ :=
  periods.foldl
    (fun acc period =>
      if acc.1 < corrAt buffer period then (corrAt buffer period, period) else acc)
    init

open scoped Classical in

/-- Embedding of `improvedAutoCorrelate(buffer, sampleRate)` from
`audioUtils.ts`: gate on `Math.sqrt(sumOfSquares / SIZE) < 0.01`; compute
`minPeriod = Math.floor(sampleRate / 1000)` and
`maxPeriod = Math.floor(sampleRate / 60)`; return `0` if `maxPeriod > SIZE`;
otherwise search the periods `minPeriod ≤ period ≤ maxPeriod` for the
maximum correlation and return `sampleRate / bestPeriod` if that maximum
exceeds `0.5 * sumOfSquares`, else `0`.  The floors are taken in `ℤ` and
cast to `ℕ` with `Int.toNat`; for the nonnegative sample rates of the
source this is exactly `Math.floor`. -/
noncomputable def improvedAutoCorrelate (buffer : List ℝ) (sampleRate : ℝ) : ℝ :=
  let SIZE := buffer.length
  let sumOfSquares := (buffer.map fun v => v * v).sum
  if Real.sqrt (sumOfSquares / SIZE) < 0.01 then 0
  else
    let minPeriod := (⌊sampleRate / 1000⌋).toNat
    let maxPeriod := (⌊sampleRate / 60⌋).toNat
    if SIZE < maxPeriod then 0
    else
      let best := searchFold buffer (List.range' minPeriod (maxPeriod + 1 - minPeriod)) (-1, 0)
      if 0.5 * sumOfSquares < best.1 then sampleRate / (best.2 : ℝ) else 0

open scoped Classical in

/-- Pitch detection as claim C5 words it, for comparison with the source
function `improvedAutoCorrelate`: gate on the square root of the TOTAL
signal energy (not of its mean), then search the lag range for 60 to 1000 Hz
and accept exactly when the maximum correlation exceeds half the total
energy. -/
noncomputable def detectPitchClaim (buffer : List ℝ) (sampleRate : ℝ) : ℝ :=
  let sumOfSquares := (buffer.map fun v => v * v).sum
  if Real.sqrt sumOfSquares < 0.01 then 0
  else
    let minPeriod := (⌊sampleRate / 1000⌋).toNat
    let maxPeriod := (⌊sampleRate / 60⌋).toNat
    let best := searchFold buffer (List.range' minPeriod (maxPeriod + 1 - minPeriod)) (-1, 0)
    if 0.5 * sumOfSquares < best.1 then sampleRate / (best.2 : ℝ) else 0

/-- Embedding of `calculateSpectralCentroid(frequencyData, sampleRate)` from
`audioUtils.ts`: `nyquist = sampleRate / 2`,
`binWidth = nyquist / frequencyData.length`, each decibel bin converts to
linear magnitude `10^(db/20)`, each bin frequency is `i * binWidth`, and the
result is `weightedSum / magnitudeSum`, or `0` when the total magnitude is
zero. -/
noncomputable def calculateSpectralCentroid (frequencyData : List ℝ)
    (sampleRate : ℝ) : ℝ :=
  let nyquist := sampleRate / 2
  let binWidth := nyquist / frequencyData.length
  let weightedSum := ∑ i in Finset.range frequencyData.length,
    (10 : ℝ) ^ (frequencyData.getD i 0 / 20) * ((i : ℝ) * binWidth)
  let magnitudeSum := ∑ i in Finset.range frequencyData.length,
    (10 : ℝ) ^ (frequencyData.getD i 0 / 20)
  if magnitudeSum = 0 then 0 else weightedSum / magnitudeSum

/-- C3 (counterexample): `mapRange` does not extrapolate linearly outside the
input range: at `x = 2` with input range `[0,1]` and output range `[0,10]`
it returns the saturated value `10`, not the linear-formula value `20`. -/
theorem mapRange_not_linear_outside :
    mapRange (2 : ℚ) 0 1 0 10 = 10 ∧
    mapRange (2 : ℚ) 0 1 0 10 ≠ 0 + (10 - 0) * ((2 - 0) / (1 - 0)) := by
  norm_num [mapRange, lerp, clamp, min_def, max_def]

/-- C3 (amended): `mapRange` saturates rather than extrapolates.  For
`inMin < inMax`, inputs below `inMin` map to `outMin`, inputs above `inMax`
map to `outMax`, and inside the input range the linear formula holds
(because `lerp` clamps its parameter to `[0,1]`). -/
theorem mapRange_saturates (x a b c d : ℚ) (hab : a < b) :
    (x ≤ a → mapRange x a b c d = c) ∧
    (b ≤ x → mapRange x a b c d = d) ∧
    (a ≤ x → x ≤ b → mapRange x a b c d = c + (d - c) * ((x - a) / (b - a))) := by
  have hba : 0 < b - a := by linarith
  refine ⟨?_, ?_, ?_⟩
  · intro hx
    have ht : (x - a) / (b - a) ≤ 0 :=
      div_nonpos_of_nonpos_of_nonneg (by linarith) (le_of_lt hba)
    simp only [mapRange, lerp, clamp]
    rw [max_eq_right ht, min_eq_left (by norm_num : (0 : ℚ) ≤ 1)]
    ring
  · intro hx
    have ht : 1 ≤ (x - a) / (b - a) := by
      rw [le_div_iff₀ hba]; linarith
    simp only [mapRange, lerp, clamp]
    rw [max_eq_left (by linarith : (0 : ℚ) ≤ (x - a) / (b - a)),
      min_eq_right ht]
    ring
  · intro hx1 hx2
    have ht0 : 0 ≤ (x - a) / (b - a) := div_nonneg (by linarith) (le_of_lt hba)
    have ht1 : (x - a) / (b - a) ≤ 1 := by
      rw [div_le_one hba]; linarith
    simp only [mapRange, lerp, clamp]
    rw [max_eq_left ht0, min_eq_left ht1]

/-- C3 (witness): at `x = 2`, input range `[0,1]`, output range `[0,10]`,
the saturation theorem yields the value `10`. -/
theorem mapRange_saturates_witness : mapRange (2 : ℚ) 0 1 0 10 = 10 :=
  (mapRange_saturates 2 0 1 0 10 (by norm_num)).2.1 (by norm_num)

/-- C4: at the four corners of the valence/arousal square, `interpolateThemes`
reproduces the corresponding preset exactly in all 11 fields: `(-1,-1)` gives
melancholic, `(1,-1)` calm, `(-1,1)` anxious, `(1,1)` joyful. -/
theorem interpolateThemes_corners :
    interpolateThemes (α := ℚ) ⟨-1, -1⟩ = THEME_PRESETS.melancholic ℚ ∧
    interpolateThemes (α := ℚ) ⟨1, -1⟩ = THEME_PRESETS.calm ℚ ∧
    interpolateThemes (α := ℚ) ⟨-1, 1⟩ = THEME_PRESETS.anxious ℚ ∧
    interpolateThemes (α := ℚ) ⟨1, 1⟩ = THEME_PRESETS.joyful ℚ := by
  refine ⟨?_, ?_, ?_, ?_⟩ <;>
    · simp only [interpolateThemes, blendField, lerp, clamp,
        THEME_PRESETS.melancholic, THEME_PRESETS.calm, THEME_PRESETS.anxious,
        THEME_PRESETS.joyful, VisualTheme.mk.injEq]
      norm_num [min_def, max_def]

/-- Helper: `clamp` lands in `[lo, hi]` whenever `lo ≤ hi`. -/
theorem clamp_bounds {α : Type} [LinearOrder α] (x lo hi : α) (h : lo ≤ hi) :
    lo ≤ clamp x lo hi ∧ clamp x lo hi ≤ hi :=
  ⟨le_min (le_max_right x lo) h, min_le_right _ _⟩

/-- Helper: `lerp` always lands between its two endpoints, because it clamps
the interpolation parameter to `[0,1]`. -/
theorem lerp_bounds {α : Type} [LinearOrderedField α] (a b t : α) :
    min a b ≤ lerp a b t ∧ lerp a b t ≤ max a b := by
  have h0 : 0 ≤ clamp t 0 1 := le_min (le_max_right t 0) zero_le_one
  have h1 : clamp t 0 1 ≤ 1 := min_le_right _ _
  rcases le_total a b with hab | hab
  · rw [min_eq_left hab, max_eq_right hab]
    unfold lerp
    constructor <;> nlinarith
  · rw [min_eq_right hab, max_eq_left hab]
    unfold lerp
    constructor <;> nlinarith

/-- Helper: the bilinear blend of one theme field lies between the least and
the greatest of the four corner values. -/
theorem blendField_bounds {α : Type} [LinearOrderedField α]
    (bl br tl tr v a : α) :
    min (min bl br) (min tl tr) ≤ blendField bl br tl tr v a ∧
    blendField bl br tl tr v a ≤ max (max bl br) (max tl tr) := by
  obtain ⟨h1, h2⟩ := lerp_bounds bl br v
  obtain ⟨h3, h4⟩ := lerp_bounds tl tr v
  obtain ⟨h5, h6⟩ := lerp_bounds (lerp bl br v) (lerp tl tr v) a
  constructor
  · exact le_trans (le_min (le_trans (min_le_left _ _) h1)
      (le_trans (min_le_right _ _) h3)) h5
  · exact le_trans h6 (max_le (le_trans h2 (le_max_left _ _))
      (le_trans h4 (le_max_right _ _)))

/-- C7: sticky fusion with no decay.  If a non-zero semantic signal `s` is
stored, an incoming sentiment score of exactly `0` leaves the stored signal
unchanged, and the fused valence computed from the same acoustic valence `a`
is unchanged and still equals `a * 0.4 + s * 0.6`. -/
theorem semantic_sticky (s a : ℚ) (hs : s ≠ 0) :
    semanticUpdate s 0 = s ∧
    fuseValence a (semanticUpdate s 0) = fuseValence a s ∧
    fuseValence a (semanticUpdate s 0) = a * 0.4 + s * 0.6 := by
  have h1 : semanticUpdate s 0 = s := by simp [semanticUpdate]
  refine ⟨h1, by rw [h1], ?_⟩
  rw [h1]
  simp only [fuseValence, if_pos hs]
  norm_num

/-- C7 (witness): the sticky-fusion theorem at the concrete stored signal
`s = 1/2` and acoustic valence `a = 1`. -/
theorem semantic_sticky_witness :
    semanticUpdate (1/2 : ℚ) 0 = 1/2 ∧
    fuseValence 1 (semanticUpdate (1/2 : ℚ) 0) = fuseValence 1 (1/2 : ℚ) ∧
    fuseValence 1 (semanticUpdate (1/2 : ℚ) 0) = 1 * 0.4 + (1/2) * 0.6 :=
  semantic_sticky (1/2) 1 (by norm_num)

/-- C8: one step of the iterated smoother with fixed target and
`alpha = 0.15` contracts the distance to the target by the factor
`1 - 0.15` and never overshoots: the new value lies between the old value
and the target. -/
theorem smoothedSeq_converges (c target : ℚ) (n : ℕ) :
    |smoothedSeq c target (n + 1) - target| ≤
      (1 - 0.15) * |smoothedSeq c target n - target| ∧
    min (smoothedSeq c target n) target ≤ smoothedSeq c target (n + 1) ∧
    smoothedSeq c target (n + 1) ≤ max (smoothedSeq c target n) target := by
  have hstep : smoothedSeq c target (n + 1) =
      smoothedSeq c target n + 0.15 * (target - smoothedSeq c target n) := rfl
  set x := smoothedSeq c target n with hx
  refine ⟨?_, ?_, ?_⟩
  · have hdiff : smoothedSeq c target (n + 1) - target =
        (1 - 0.15) * (x - target) := by rw [hstep]; ring
    rw [hdiff, abs_mul, abs_of_pos (by norm_num : (0:ℚ) < 1 - 0.15)]
  · rcases le_total x target with h | h
    · rw [min_eq_left h, hstep]; nlinarith
    · rw [min_eq_right h, hstep]; nlinarith
  · rcases le_total x target with h | h
    · rw [max_eq_right h, hstep]; nlinarith
    · rw [max_eq_left h, hstep]; nlinarith

/-- C8 (witness): the smoothing step from start `0` toward target `1` after
one tick: the contraction bound and the betweenness at `n = 0`. -/
theorem smoothedSeq_converges_witness :
    |smoothedSeq 0 1 (0 + 1) - 1| ≤ (1 - 0.15) * |smoothedSeq 0 1 0 - 1| ∧
    min (smoothedSeq 0 1 0) 1 ≤ smoothedSeq 0 1 (0 + 1) ∧
    smoothedSeq 0 1 (0 + 1) ≤ max (smoothedSeq 0 1 0) 1 :=
  smoothedSeq_converges 0 1 0

/-- C9: `interpolateThemes` is bounded for arbitrary inputs.  For every
emotion state, in-range or not, each of the 11 output fields lies between
the least and the greatest of the four preset values of that field. -/
theorem interpolateThemes_bounded (e : EmotionState ℝ) :
    fieldWithinPresets (fun t => t.primaryHue) (interpolateThemes e) ∧
    fieldWithinPresets (fun t => t.primarySaturation) (interpolateThemes e) ∧
    fieldWithinPresets (fun t => t.primaryLightness) (interpolateThemes e) ∧
    fieldWithinPresets (fun t => t.secondaryHue) (interpolateThemes e) ∧
    fieldWithinPresets (fun t => t.secondarySaturation) (interpolateThemes e) ∧
    fieldWithinPresets (fun t => t.secondaryLightness) (interpolateThemes e) ∧
    fieldWithinPresets (fun t => t.blurAmount) (interpolateThemes e) ∧
    fieldWithinPresets (fun t => t.opacity) (interpolateThemes e) ∧
    fieldWithinPresets (fun t => t.animationSpeed) (interpolateThemes e) ∧
    fieldWithinPresets (fun t => t.scaleRange) (interpolateThemes e) ∧
    fieldWithinPresets (fun t => t.driftAmount) (interpolateThemes e) := by
  refine ⟨?_, ?_, ?_, ?_, ?_, ?_, ?_, ?_, ?_, ?_, ?_⟩ <;>
    exact blendField_bounds _ _ _ _ _ _

/-- C9 (witness): the boundedness theorem at the concrete out-of-range
emotion state `(valence, arousal) = (5, -7)`. -/
theorem interpolateThemes_bounded_witness :
    fieldWithinPresets (fun t => t.primaryHue) (interpolateThemes (⟨5, -7⟩ : EmotionState ℝ)) :=
  (interpolateThemes_bounded ⟨5, -7⟩).1

/-- Helper: `sigmoid` is bounded in `[-1, 1]` for all real arguments. -/
theorem sigmoid_bounds (x k : ℝ) : -1 ≤ sigmoid x k ∧ sigmoid x k ≤ 1 := by
  have h1 : (0:ℝ) < 1 + Real.exp (-k * x) := by positivity
  have h2 : 0 ≤ 2 / (1 + Real.exp (-k * x)) := by positivity
  have h3 : 2 / (1 + Real.exp (-k * x)) ≤ 2 := by
    rw [div_le_iff₀ h1]
    nlinarith [Real.exp_pos (-k * x)]
  unfold sigmoid
  constructor <;> linarith

/-- C1 (counterexample): `setSimulatedEmotion` is a production site of
`EmotionState` that does not clamp: with the out-of-range input
`valence = 2` the stored state has valence `2`, outside `[-1, 1]`. -/
theorem setSimulatedEmotion_unclamped :
    ¬(-1 ≤ (setSimulatedEmotion (2 : ℚ) 0).valence ∧
      (setSimulatedEmotion (2 : ℚ) 0).valence ≤ 1) := by
  norm_num [setSimulatedEmotion]

/-- C1 (amended): the acoustic production sites are in range for all inputs:
the `audioToEmotion` output and every state written by `processAudio` have
both fields in `[-1, 1]`; `setSimulatedEmotion`, by contrast, stores its
arguments unchanged, so its state is in range exactly when its inputs are. -/
theorem emotionState_in_range :
    (∀ f : AudioFeatures ℝ,
      (-1 ≤ (audioToEmotion f).valence ∧ (audioToEmotion f).valence ≤ 1) ∧
      (-1 ≤ (audioToEmotion f).arousal ∧ (audioToEmotion f).arousal ≤ 1)) ∧
    (∀ (sim : Bool) (s : ℝ) (f : AudioFeatures ℝ) (st : EmotionState ℝ),
      processAudio sim s f = some st →
      (-1 ≤ st.valence ∧ st.valence ≤ 1) ∧ (-1 ≤ st.arousal ∧ st.arousal ≤ 1)) ∧
    (∀ v a : ℝ,
      ((-1 ≤ (setSimulatedEmotion v a).valence ∧ (setSimulatedEmotion v a).valence ≤ 1) ∧
       (-1 ≤ (setSimulatedEmotion v a).arousal ∧ (setSimulatedEmotion v a).arousal ≤ 1)) ↔
      ((-1 ≤ v ∧ v ≤ 1) ∧ (-1 ≤ a ∧ a ≤ 1))) := by
  refine ⟨?_, ?_, fun v a => Iff.rfl⟩
  · intro f
    exact ⟨sigmoid_bounds _ _, sigmoid_bounds _ _⟩
  · intro sim s f st h
    simp only [processAudio] at h
    split at h
    · exact absurd h (by simp)
    · split at h
      · rw [Option.some_inj] at h
        rw [← h]
        refine ⟨clamp_bounds _ _ _ (by norm_num), clamp_bounds _ _ _ (by norm_num)⟩
      · exact absurd h (by simp)

/-- C1 (witness): the amended theorem at concrete inputs: the in-range
simulated pair `(1/2, 0)` yields an in-range state. -/
theorem emotionState_in_range_witness :
    (-1 ≤ (setSimulatedEmotion (1/2 : ℝ) 0).valence ∧
      (setSimulatedEmotion (1/2 : ℝ) 0).valence ≤ 1) ∧
    (-1 ≤ (setSimulatedEmotion (1/2 : ℝ) 0).arousal ∧
      (setSimulatedEmotion (1/2 : ℝ) 0).arousal ≤ 1) :=
  (emotionState_in_range.2.2 (1/2) 0).mpr (by norm_num)

open scoped Classical in

/-- C2 (code bug): `calculateRMS` is not total over the declared domain.  On
the zero-length buffer the source divides zero by zero and the NaN
propagates to the result (modelled as `none`), violating both the no-NaN
requirement and the required value `0`.  On a nonempty all-silence buffer
it does return `0`, and `calculateZeroCrossingRate` returns `0` on the
empty buffer, as specified. -/
theorem calculateRMS_empty_nan :
    calculateRMS [] = none ∧
    calculateRMS [0, 0] = some 0 ∧
    calculateZeroCrossingRate [] = 0 := by
  refine ⟨rfl, ?_, ?_⟩
  · have h : ((0:ℝ) * 0 + (0 * 0 + 0)) / 2 = 0 := by norm_num
    simp only [calculateRMS, List.map_cons, List.map_nil, List.sum_cons,
      List.sum_nil, List.length_cons, List.length_nil, h, Real.sqrt_zero]
    norm_num
  · have hempty : Finset.Ico 1 ([] : List ℚ).length = ∅ := by
      simp
    simp only [calculateZeroCrossingRate, hempty, Finset.filter_empty,
      Finset.card_empty, Nat.cast_zero, zero_div]
    norm_num

/-- C10: `improvedAutoCorrelate` returns `0` for every buffer shorter than
`floor(sampleRate / 60)` samples, regardless of the contents of the buffer:
either the RMS gate fires, or the `maxPeriod > SIZE` guard does, so pitch
detection silently requires at least one full 60 Hz period of samples. -/
theorem improvedAutoCorrelate_short_buffer (buffer : List ℝ) (sampleRate : ℝ)
    (h : (buffer.length : ℤ) < ⌊sampleRate / 60⌋) :
    improvedAutoCorrelate buffer sampleRate = 0 := by
  have hmax : buffer.length < (⌊sampleRate / 60⌋).toNat := by omega
  simp only [improvedAutoCorrelate]
  split <;> rfl

/-- C10 (witness): a 2-sample buffer of full-scale samples at 44100 Hz
(`floor(44100 / 60) = 735 > 2`) yields pitch `0`. -/
theorem improvedAutoCorrelate_short_buffer_witness :
    improvedAutoCorrelate [1, 1] 44100 = 0 := by
  apply improvedAutoCorrelate_short_buffer
  have h60 : (44100 : ℝ) / 60 = 735 := by norm_num
  have hfloor : ⌊(735 : ℝ)⌋ = 735 := by
    rw [Int.floor_eq_iff]
    norm_num
  simp only [List.length_cons, List.length_nil, h60, hfloor]
  norm_num

/-- Helper: a sum of squares is nonnegative. -/
theorem sumOfSquares_nonneg (buffer : List ℝ) :
    0 ≤ (buffer.map fun v => v * v).sum :=
  List.sum_nonneg fun x hx => by
    obtain ⟨v, _, rfl⟩ := List.mem_map.mp hx
    exact mul_self_nonneg v

/-- Helper: the search fold never goes below its initial maximum, bounds
every candidate correlation, and ends either at the initial state or at a
pair holding a candidate period together with its correlation. -/
theorem searchFold_spec (buffer : List ℝ) (periods : List ℕ) (init : ℝ × ℕ) :
    (searchFold buffer periods init = init ∨
      ((searchFold buffer periods init).2 ∈ periods ∧
        (searchFold buffer periods init).1 =
          corrAt buffer (searchFold buffer periods init).2)) ∧
    init.1 ≤ (searchFold buffer periods init).1 ∧
    ∀ q ∈ periods, corrAt buffer q ≤ (searchFold buffer periods init).1 := by
  induction periods generalizing init with
  | nil =>
    exact ⟨Or.inl rfl, le_refl _, by simp⟩
  | cons p ps ih =>
    have hfold : searchFold buffer (p :: ps) init =
        searchFold buffer ps
          (if init.1 < corrAt buffer p then (corrAt buffer p, p) else init) := rfl
    by_cases hc : init.1 < corrAt buffer p
    · rw [hfold, if_pos hc]
      obtain ⟨hmem, hle, hall⟩ := ih (corrAt buffer p, p)
      refine ⟨?_, ?_, ?_⟩
      · rcases hmem with heq | ⟨h2, h1⟩
        · refine Or.inr ⟨?_, ?_⟩
          · rw [heq]; exact List.mem_cons_self p ps
          · rw [heq]
        · exact Or.inr ⟨List.mem_cons_of_mem p h2, h1⟩
      · exact le_trans (le_of_lt hc) hle
      · intro q hq
        rcases List.mem_cons.mp hq with hq1 | hq2
        · rw [hq1]; exact hle
        · exact hall q hq2
    · rw [hfold, if_neg hc]
      obtain ⟨hmem, hle, hall⟩ := ih init
      refine ⟨?_, hle, ?_⟩
      · rcases hmem with heq | hin
        · exact Or.inl heq
        · exact Or.inr ⟨List.mem_cons_of_mem p hin.1, hin.2⟩
      · intro q hq
        rcases List.mem_cons.mp hq with hq1 | hq2
        · rw [hq1]; exact le_trans (not_lt.mp hc) hle
        · exact hall q hq2

/-- C5 (amended): the gate of `improvedAutoCorrelate` is on the RMS, the
square root of the MEAN square (not of the total energy): if the RMS is
below `0.01` the function returns `0`; otherwise, once the short-buffer
guard also passes, it searches the integer periods from
`floor(sampleRate/1000)` to `floor(sampleRate/60)` and either returns
`sampleRate / p` for a period `p` of maximal correlation whose correlation
exceeds half the total energy, or returns `0` when no candidate correlation
exceeds half the total energy. -/
theorem improvedAutoCorrelate_spec (buffer : List ℝ) (sampleRate : ℝ) :
    (Real.sqrt ((buffer.map fun v => v * v).sum / buffer.length) < 0.01 →
      improvedAutoCorrelate buffer sampleRate = 0) ∧
    (¬ Real.sqrt ((buffer.map fun v => v * v).sum / buffer.length) < 0.01 →
      (⌊sampleRate / 60⌋).toNat ≤ buffer.length →
      (∃ p ∈ List.range' (⌊sampleRate / 1000⌋).toNat
          ((⌊sampleRate / 60⌋).toNat + 1 - (⌊sampleRate / 1000⌋).toNat),
        (∀ q ∈ List.range' (⌊sampleRate / 1000⌋).toNat
            ((⌊sampleRate / 60⌋).toNat + 1 - (⌊sampleRate / 1000⌋).toNat),
          corrAt buffer q ≤ corrAt buffer p) ∧
        0.5 * (buffer.map fun v => v * v).sum < corrAt buffer p ∧
        improvedAutoCorrelate buffer sampleRate = sampleRate / p) ∨
      ((∀ q ∈ List.range' (⌊sampleRate / 1000⌋).toNat
          ((⌊sampleRate / 60⌋).toNat + 1 - (⌊sampleRate / 1000⌋).toNat),
        corrAt buffer q ≤ 0.5 * (buffer.map fun v => v * v).sum) ∧
        improvedAutoCorrelate buffer sampleRate = 0)) := by
  constructor
  · intro hrms
    simp only [improvedAutoCorrelate]
    split
    · rfl
    · exact absurd hrms (by assumption)
  · intro hrms hlen
    have hunfold : improvedAutoCorrelate buffer sampleRate =
        (if 0.5 * (buffer.map fun v => v * v).sum <
            (searchFold buffer
              (List.range' (⌊sampleRate / 1000⌋).toNat
                ((⌊sampleRate / 60⌋).toNat + 1 - (⌊sampleRate / 1000⌋).toNat)) (-1, 0)).1
          then sampleRate /
            ((searchFold buffer
              (List.range' (⌊sampleRate / 1000⌋).toNat
                ((⌊sampleRate / 60⌋).toNat + 1 - (⌊sampleRate / 1000⌋).toNat)) (-1, 0)).2 : ℝ)
          else 0) := by
      simp only [improvedAutoCorrelate]
      rw [if_neg hrms, if_neg (not_lt.mpr hlen)]
    obtain ⟨hmem, hinit, hall⟩ := searchFold_spec buffer
      (List.range' (⌊sampleRate / 1000⌋).toNat
        ((⌊sampleRate / 60⌋).toNat + 1 - (⌊sampleRate / 1000⌋).toNat)) (-1, 0)
    by_cases hacc : 0.5 * (buffer.map fun v => v * v).sum <
        (searchFold buffer
          (List.range' (⌊sampleRate / 1000⌋).toNat
            ((⌊sampleRate / 60⌋).toNat + 1 - (⌊sampleRate / 1000⌋).toNat)) (-1, 0)).1
    · left
      have hpos : (-1 : ℝ) <
          (searchFold buffer
            (List.range' (⌊sampleRate / 1000⌋).toNat
              ((⌊sampleRate / 60⌋).toNat + 1 - (⌊sampleRate / 1000⌋).toNat)) (-1, 0)).1 := by
        have := sumOfSquares_nonneg buffer
        nlinarith
      rcases hmem with heq | ⟨hin, hcorr⟩
      · rw [heq] at hpos
        norm_num at hpos
      · refine ⟨_, hin, ?_, ?_, ?_⟩
        · intro q hq
          rw [← hcorr]
          exact hall q hq
        · rw [← hcorr]
          exact hacc
        · rw [hunfold, if_pos hacc]
    · right
      refine ⟨?_, ?_⟩
      · intro q hq
        exact le_trans (hall q hq) (not_lt.mp hacc)
      · rw [hunfold, if_neg hacc]

/-- C5 (witness): the amended theorem at the single-sample silent buffer:
the RMS gate fires and pitch `0` is reported. -/
theorem improvedAutoCorrelate_spec_witness :
    improvedAutoCorrelate [0] 1000 = 0 :=
  (improvedAutoCorrelate_spec [0] 1000).1 (by norm_num [Real.sqrt_zero])

/-- Helper: the correlation of a constant buffer of `n` copies of `c` at lag
`period` is the overlap length times `c * c`. -/
theorem corrAt_replicate (n p : ℕ) (c : ℝ) :
    corrAt (List.replicate n c) p = ((n - p : ℕ) : ℝ) * (c * c) := by
  unfold corrAt
  rw [List.length_replicate]
  have hterm : ∀ i ∈ Finset.range (n - p),
      (List.replicate n c).getD i 0 * (List.replicate n c).getD (i + p) 0 = c * c := by
    intro i hi
    rw [Finset.mem_range] at hi
    rw [List.getD_eq_getElem?_getD, List.getD_eq_getElem?_getD,
      List.getElem?_replicate_of_lt (by omega), List.getElem?_replicate_of_lt (by omega)]
    rfl
  rw [Finset.sum_congr rfl hterm, Finset.sum_const, Finset.card_range, nsmul_eq_mul]

open scoped Classical in

/-- C5 (counterexample): on the 16-sample constant buffer of amplitude
`1/200` at `sampleRate = 1000` the claim disagrees with the source: the
square root of the TOTAL energy is `1/50 ≥ 0.01` and the best lag `1` has
correlation `15/40000` above half the energy `8/40000`, so the procedure
described by the claim returns `1000`; the source function instead gates on
the RMS, which is `1/200 < 0.01`, and returns `0`. -/
theorem improvedAutoCorrelate_claim_mismatch :
    improvedAutoCorrelate (List.replicate 16 (1/200 : ℝ)) 1000 = 0 ∧
    detectPitchClaim (List.replicate 16 (1/200 : ℝ)) 1000 = 1000 := by
  have hsum : ((List.replicate 16 (1/200 : ℝ)).map fun v => v * v).sum = 1/2500 := by
    rw [List.map_replicate, List.sum_replicate, nsmul_eq_mul]
    norm_num
  constructor
  · have hgate : Real.sqrt
        (((List.replicate 16 (1/200 : ℝ)).map fun v => v * v).sum /
          ((List.replicate 16 (1/200 : ℝ)).length : ℝ)) < 0.01 := by
      rw [hsum, List.length_replicate]
      rw [show (1/2500 : ℝ) / ((16 : ℕ) : ℝ) = (1/200)^2 by norm_num]
      rw [Real.sqrt_sq (by norm_num : (0:ℝ) ≤ 1/200)]
      norm_num
    simp only [improvedAutoCorrelate]
    rw [if_pos hgate]
  · have hgate2 : ¬ Real.sqrt
        (((List.replicate 16 (1/200 : ℝ)).map fun v => v * v).sum) < 0.01 := by
      rw [hsum, show (1/2500 : ℝ) = (1/50)^2 by norm_num,
        Real.sqrt_sq (by norm_num : (0:ℝ) ≤ 1/50)]
      norm_num
    have hf1 : (⌊(1000 : ℝ) / 1000⌋).toNat = 1 := by
      rw [show (1000:ℝ)/1000 = 1 by norm_num, Int.floor_one]
      rfl
    have hf2 : (⌊(1000 : ℝ) / 60⌋).toNat = 16 := by
      have h : ⌊(1000:ℝ)/60⌋ = 16 := by
        rw [Int.floor_eq_iff]
        norm_num
      rw [h]
      rfl
    have hc : ∀ p : ℕ, corrAt (List.replicate 16 (1/200 : ℝ)) p =
        ((16 - p : ℕ) : ℝ) * (1/40000) := by
      intro p
      rw [corrAt_replicate]
      norm_num
    obtain ⟨hmem, hinit, hall⟩ :=
      searchFold_spec (List.replicate 16 (1/200 : ℝ)) (List.range' 1 16) (-1, 0)
    have h1mem : 1 ∈ List.range' 1 16 := by
      rw [List.mem_range']
      exact ⟨0, by norm_num, by norm_num⟩
    have hc1 : corrAt (List.replicate 16 (1/200 : ℝ)) 1 = 15 * (1/40000) := by
      rw [hc 1]
      norm_num
    have hbig : (15 : ℝ) * (1/40000) ≤
        (searchFold (List.replicate 16 (1/200 : ℝ)) (List.range' 1 16) (-1, 0)).1 := by
      rw [← hc1]
      exact hall 1 h1mem
    rcases hmem with heq | ⟨hin, hcorr⟩
    · rw [heq] at hbig
      norm_num at hbig
    · obtain ⟨i, hi, hieq⟩ := List.mem_range'.mp hin
      have hr2a : 1 ≤ (searchFold (List.replicate 16 (1/200 : ℝ)) (List.range' 1 16) (-1, 0)).2 := by
        omega
      have hr1 := hcorr
      rw [hc] at hr1
      have h15 : (15 : ℝ) ≤
          ((16 - (searchFold (List.replicate 16 (1/200 : ℝ)) (List.range' 1 16) (-1, 0)).2 : ℕ) : ℝ) := by
        rw [hr1] at hbig
        nlinarith
      have h15n : 15 ≤ 16 - (searchFold (List.replicate 16 (1/200 : ℝ)) (List.range' 1 16) (-1, 0)).2 := by
        exact_mod_cast h15
      have hr2 : (searchFold (List.replicate 16 (1/200 : ℝ)) (List.range' 1 16) (-1, 0)).2 = 1 := by
        omega
      have hr1v : (searchFold (List.replicate 16 (1/200 : ℝ)) (List.range' 1 16) (-1, 0)).1 =
          15 * (1/40000) := by
        rw [hcorr, hr2, hc1]
      have hacc : 0.5 * ((List.replicate 16 (1/200 : ℝ)).map fun v => v * v).sum <
          (searchFold (List.replicate 16 (1/200 : ℝ)) (List.range' 1 16) (-1, 0)).1 := by
        rw [hsum, hr1v]
        norm_num
      simp only [detectPitchClaim]
      rw [if_neg hgate2, hf1, hf2]
      rw [show (16 + 1 - 1 : ℕ) = 16 from rfl]
      rw [if_pos hacc, hr2]
      norm_num

/-- C6 (counterexample): the two-bin buffer with both decibel entries `0` at
`sampleRate = 4` has linear magnitude `10^0 = 1` in each bin, so the guard
does not fire and the centroid is the mean bin frequency `1/2`, not `0`. -/
theorem calculateSpectralCentroid_zero_db_not_zero :
    calculateSpectralCentroid [0, 0] 4 ≠ 0 := by
  have hlen : ([0, 0] : List ℝ).length = 2 := rfl
  simp only [calculateSpectralCentroid, hlen, Finset.sum_range_succ,
    Finset.sum_range_zero, List.getD_cons_zero, List.getD_cons_succ]
  norm_num [Real.rpow_zero]

/-- C6 (amended): an all-zero DECIBEL buffer does not have zero total
magnitude: each bin converts to linear magnitude `10^0 = 1`, the guarded
division does not fire, and the centroid equals the unweighted mean bin
frequency `binWidth * (n - 1) / 2` with `binWidth = sampleRate / 2 / n`.
The guard returns `0` only when the total linear magnitude is zero, which
never happens for finite decibel values. -/
theorem calculateSpectralCentroid_zero_db (n : ℕ) (hn : 1 ≤ n) (sampleRate : ℝ) :
    calculateSpectralCentroid (List.replicate n 0) sampleRate =
      sampleRate / 2 / n * ((n : ℝ) - 1) / 2 := by
  have hmag : ∀ i ∈ Finset.range n,
      (10 : ℝ) ^ ((List.replicate n (0:ℝ)).getD i 0 / 20) = 1 := by
    intro i hi
    rw [Finset.mem_range] at hi
    rw [List.getD_eq_getElem?_getD, List.getElem?_replicate_of_lt hi]
    norm_num [Real.rpow_zero]
  have hne : ((n : ℝ)) ≠ 0 := Nat.cast_ne_zero.mpr (by omega)
  simp only [calculateSpectralCentroid, List.length_replicate]
  have hms : (∑ i in Finset.range n,
      (10 : ℝ) ^ ((List.replicate n (0:ℝ)).getD i 0 / 20)) = (n : ℝ) := by
    rw [Finset.sum_congr rfl hmag, Finset.sum_const, Finset.card_range,
      nsmul_eq_mul, mul_one]
  have hws : (∑ i in Finset.range n,
      (10 : ℝ) ^ ((List.replicate n (0:ℝ)).getD i 0 / 20) *
        ((i : ℝ) * (sampleRate / 2 / n))) =
      (sampleRate / 2 / n) * ((n : ℝ) * ((n : ℝ) - 1) / 2) := by
    have hterm : ∀ i ∈ Finset.range n,
        (10 : ℝ) ^ ((List.replicate n (0:ℝ)).getD i 0 / 20) *
          ((i : ℝ) * (sampleRate / 2 / n)) =
        (sampleRate / 2 / n) * (i : ℝ) := by
      intro i hi
      rw [hmag i hi, one_mul]
      ring
    rw [Finset.sum_congr rfl hterm, ← Finset.mul_sum]
    congr 1
    have hg := Finset.sum_range_id_mul_two n
    have hcast : ((∑ i in Finset.range n, i : ℕ) : ℝ) * 2 = (n : ℝ) * ((n - 1 : ℕ) : ℝ) := by
      exact_mod_cast congrArg (fun m : ℕ => (m : ℝ)) hg
    rw [Nat.cast_sub hn, Nat.cast_one] at hcast
    push_cast at hcast ⊢
    linarith
  rw [hms, hws, if_neg hne]
  field_simp
  ring

/-- C6 (witness): the amended centroid formula at the two-bin all-zero-dB
buffer with `sampleRate = 4`: the result is `4/2/2 * (2-1)/2 = 1/2`. -/
theorem calculateSpectralCentroid_zero_db_witness :
    calculateSpectralCentroid (List.replicate 2 (0:ℝ)) 4 =
      4 / 2 / ((2 : ℕ) : ℝ) * (((2 : ℕ) : ℝ) - 1) / 2 :=
  calculateSpectralCentroid_zero_db 2 (by norm_num) 4

end EAVJ
